import Mathlib

/-!
Shallow embedding of the article-cache core of the `rss-live` repository.

The embedding covers:
* the canonical `Article` record (`src/types/index.ts`),
* the file cache layer (`src/cache/fileCache.ts`): TTL validation, versioned
  reads, the `addArticles` merge/dedup/trim engine, stats and search,
* the `NewsService` read path and refresh scheduler (`src/services/NewsService.ts`),
* the aggregator's `removeDuplicates` and `generateArticleSlug`/`slugify`
  (`public/sw.js` and `src/utils/slugify.ts`).

Modelling conventions:
* `pubDate` is modelled as the millisecond timestamp that
  `new Date(article.pubDate).getTime()` yields; every comparison in the source
  goes through that projection, never through the raw ISO string.
* JavaScript's `Array.prototype.sort` is stable (required by the ECMAScript
  spec); with the comparator `(a, b) => dateOf(b) - dateOf(a)` it is modelled
  by `List.insertionSort` over the relation `dateGe` (ties keep input order).
* File-system state is explicit: a cache file is `Option CacheFile`
  (`none` = the file does not exist / `fs.stat` fails), and `Date.now()` is an
  explicit `now : Nat` argument.
* Fallible writes are driven by explicit success flags in `RefreshEnv`;
  a failed write raises, leaving the file unchanged.
-/

namespace RssLive

/-- Canonical article record, from `src/types/index.ts`.  `image` is the
optional `image?: string` field (`none` = absent).  The optional SEO metadata
fields (`newsKeywords`, `urgency`, ...) are omitted: no claim mentions them and
no modelled operation reads them. -/
structure Article where
  id : String
  title : String
  description : String
  content : String
  link : String
  pubDate : Nat
  source : String
  sourceColor : String
  category : String
  slug : String
  image : Option String
  tags : List String
  readingTime : Nat
  deriving DecidableEq, Repr

/-- JavaScript truthiness of the optional `article.image` field: `undefined`
and the empty string are falsy.  This is the exact test performed by
`articles.filter((article) => article.image)`. -/
def hasImage (a : Article) : Bool :=
  match a.image with
  | none => false
  | some s => s != ""

/-- Comparator relation realised by `(a, b) => new Date(b.pubDate).getTime() -
new Date(a.pubDate).getTime()`: `dateGe a b` holds when `a` sorts no later
than `b` in the descending-by-date order. -/
def dateGe (a b : Article) : Prop := b.pubDate ≤ a.pubDate

instance dateGeDecidable : DecidableRel dateGe := fun a b => Nat.decLe b.pubDate a.pubDate

instance dateGeTotal : IsTotal Article dateGe :=
  ⟨fun a b => (Nat.le_total b.pubDate a.pubDate).imp id id⟩

instance dateGeTrans : IsTrans Article dateGe :=
  ⟨fun _ _ _ h1 h2 => Nat.le_trans h2 h1⟩

/-- The stable descending-by-`pubDate` sort used throughout the source
(`.sort((a, b) => new Date(b.pubDate).getTime() - new Date(a.pubDate).getTime())`). -/
def sortByDateDesc (l : List Article) : List Article := l.insertionSort dateGe

/-! ### File cache (`src/cache/fileCache.ts`) -/

/-- Constant `CACHE_VERSION`. -/
def cacheVersion : String := "1.0.0"

/-- Constant `CACHE_EXPIRY_MS`: 30 minutes. -/
def cacheExpiryMs : Nat := 30 * 60 * 1000

/-- Parsed content of a cache file (`CacheData` in `src/types/index.ts`). -/
structure CacheData where
  articles : List Article
  lastUpdated : Nat
  version : String
  deriving DecidableEq, Repr

/-- A cache file on disk: its storage modification time (`fs.stat().mtime`)
and its parsed JSON content. -/
structure CacheFile where
  mtime : Nat
  data : CacheData
  deriving DecidableEq, Repr

/-- Predicate `isCacheValid`: the file exists and `now - mtime < CACHE_EXPIRY_MS`.
A missing file (failed `fs.stat`) is invalid.  Note `Nat` subtraction
truncates at 0, matching the JavaScript verdict for an `mtime` in the
future (negative age is `< CACHE_EXPIRY_MS`). -/
def isCacheValid (now : Nat) (file : Option CacheFile) : Bool :=
  match file with
  | none => false
  | some f => now - f.mtime < cacheExpiryMs

/-- Reader `readCacheFile`: `null` when the file is invalid (missing or expired) or
its stored version tag differs from `CACHE_VERSION`. -/
def readCacheFile (now : Nat) (file : Option CacheFile) : Option CacheData :=
  match file with
  | none => none
  | some f =>
    if !isCacheValid now (some f) then none
    else if f.data.version != cacheVersion then none
    else some f.data

/-- Reader `getCachedArticles`: `cacheData?.articles || []`. -/
def getCachedArticles (now : Nat) (file : Option CacheFile) : List Article :=
  match readCacheFile now file with
  | none => []
  | some d => d.articles

/-- The `uniqueNewArticles` intermediate of `addArticles`: new articles whose
`id` is not already present in the cached set (`existingIds` is a `Set` in the
source, modelled as the list of cached ids). -/
def uniqueNewArticles (existingArticles newArticles : List Article) : List Article :=
  let existingIds := existingArticles.map (·.id)
  newArticles.filter (fun a => !(existingIds.contains a.id))

/-- Merge engine `addArticles`, with the cache read state-passed: given the
currently cached list and the fetched batch it returns the resulting cached
list together with a flag recording whether a write occurred.  When no
genuinely new article remains, the existing list is returned and nothing is
written; otherwise the new articles are prepended, the whole list re-sorted
descending by `pubDate` and trimmed to the most recent 1000. -/
def addArticles (existingArticles newArticles : List Article) : List Article × Bool :=
  let uniqueNew := uniqueNewArticles existingArticles newArticles
  if uniqueNew.length == 0 then
    (existingArticles, false)
  else
    let allArticles := sortByDateDesc (uniqueNew ++ existingArticles)
    let trimmedArticles := allArticles.take 1000
    (trimmedArticles, true)

/-- A sequence of `addArticles` merges starting from the empty cache. -/
def mergeSeq (batches : List (List Article)) : List Article :=
  batches.foldl (fun cache batch => (addArticles cache batch).1) []

/-- Result record of `getCacheStats` (the on-disk `cacheSize` byte count is
not modelled: no claim reads it). -/
structure CacheStats where
  articlesCount : Nat
  lastUpdated : Option Nat
  isExpired : Bool
  deriving DecidableEq, Repr

/-- Stats `getCacheStats`: all fields recomputed fresh from storage. -/
def getCacheStats (now : Nat) (file : Option CacheFile) : CacheStats :=
  let cacheData := readCacheFile now file
  { articlesCount :=
      match cacheData with
      | none => 0
      | some d => d.articles.length
  , lastUpdated :=
      match cacheData with
      | none => none
      | some d => some d.lastUpdated
  , isExpired := !isCacheValid now file }

/-! ### String helpers shared by search, dedup and slugify

JavaScript string semantics restricted to the character classes the source's
regexes use: `\s` (whitespace), `\w` (ASCII word characters), `toLowerCase`
(modelled per-character; the inputs of interest are ASCII). -/

/-- Whitespace as matched by the source's `\s` and `trim()` (ASCII range). -/
def jsIsSpace (c : Char) : Bool :=
  c == ' ' || c == '\t' || c == '\n' || c == '\r' || c == '\x0b' || c == '\x0c'

/-- A `\w` word character: ASCII letter, digit or underscore. -/
def isWordChar (c : Char) : Bool :=
  c.isAlphanum || c == '_'

/-- Remove a trailing run of characters satisfying `p` (the effect of the
anchored regex `/p+$/` replaced by the empty string). -/
def dropTrailing (p : Char → Bool) (l : List Char) : List Char :=
  (l.reverse.dropWhile p).reverse

/-- JavaScript `String.prototype.trim()` on the character list. -/
def trimChars (l : List Char) : List Char :=
  dropTrailing jsIsSpace (l.dropWhile jsIsSpace)

/-- Replace every maximal run of characters satisfying `p` by the single
character `rep` (a global regex replace of `p+`).  The boolean argument
records whether the previous character was inside a run. -/
def replaceRuns (p : Char → Bool) (rep : Char) : Bool → List Char → List Char
  | _, [] => []
  | inRun, c :: cs =>
    if p c then
      if inRun then replaceRuns p rep true cs
      else rep :: replaceRuns p rep true cs
    else c :: replaceRuns p rep false cs

/-- Per-character `toLowerCase` of a string. -/
def toLowerStr (s : String) : String := String.mk (s.toList.map Char.toLower)

/-- JavaScript `trim()` of a string. -/
def jsTrim (s : String) : String := String.mk (trimChars s.toList)

/-- Character-list prefix test (`==` on each character). -/
def startsWithChars (needle : List Char) : List Char → Bool
  | [] => needle.isEmpty
  | c :: rest =>
    match needle with
    | [] => true
    | n :: ns => n == c && startsWithChars ns rest

/-- Character-list substring test: some suffix of the haystack starts with the
needle. -/
def hasInfixChars (needle : List Char) : List Char → Bool
  | [] => needle.isEmpty
  | c :: rest => startsWithChars needle (c :: rest) || hasInfixChars needle rest

/-- JavaScript `haystack.includes(needle)` (substring containment; the empty
needle is contained in everything). -/
def jsIncludes (s sub : String) : Bool := hasInfixChars sub.toList s.toList

/-! ### Slug derivation (`src/utils/slugify.ts`, `public/sw.js`) -/

/-- Function `slugify`: lowercase, trim, collapse whitespace/underscore runs to single
hyphens, strip characters that are neither word characters nor hyphens,
collapse hyphen runs, trim leading and trailing hyphens, cap at 100
characters, and strip any trailing hyphens left by the truncation.  The
falsy-input guard returns the empty string for the empty string. -/
def slugify (text : String) : String :=
  if text == "" then ""
  else
    let step1 := text.toList.map Char.toLower
    let step2 := trimChars step1
    let step3 := replaceRuns (fun c => jsIsSpace c || c == '_') '-' false step2
    let step4 := step3.filter (fun c => isWordChar c || c == '-')
    let step5 := replaceRuns (fun c => c == '-') '-' false step4
    let step6 := dropTrailing (fun c => c == '-') (step5.dropWhile (fun c => c == '-'))
    let step7 := step6.take 100
    let step8 := dropTrailing (fun c => c == '-') step7
    String.mk step8

/-- Function `generateArticleSlug` from `public/sw.js` (equally `createDatedSlug` from
`src/utils/slugify.ts`): the date's `YYYY-MM-DD` prefix, a hyphen, and the
slugified title.  The platform date handling
(`new Date(pubDate).toISOString().split("T")[0]`) is abstracted: `dateStr`
stands for the `YYYY-MM-DD` prefix that a parseable ISO date yields. -/
def generateArticleSlug (dateStr : String) (title : String) : String :=
  dateStr ++ "-" ++ slugify title

/-! ### Aggregator deduplication (`removeDuplicates` in `public/sw.js`) -/

/-- The normalized title used by the dedup key:
`title.toLowerCase().replace(/[^\w\s]/g, "").trim()`. -/
def normalizedTitle (t : String) : String :=
  String.mk (trimChars ((t.toList.map Char.toLower).filter (fun c => isWordChar c || jsIsSpace c)))

/-- The dedup key `normalizedTitle + "-" + link`. -/
def dedupKey (a : Article) : String := normalizedTitle a.title ++ "-" ++ a.link

/-- Loop of `removeDuplicates`: walk the list keeping an article when its key
has not been seen, recording seen keys (the `Set` is modelled as a list). -/
def removeDuplicatesAux (seen : List String) : List Article → List Article
  | [] => []
  | a :: rest =>
    if seen.contains (dedupKey a) then removeDuplicatesAux seen rest
    else a :: removeDuplicatesAux (dedupKey a :: seen) rest

/-- Function `removeDuplicates`: keep the first occurrence of every dedup key. -/
def removeDuplicates (articles : List Article) : List Article :=
  removeDuplicatesAux [] articles

/-- Specification-side deduplication, written from the spec's words: the
first occurrence of each key is kept and every later article with the same
key is dropped. -/
def dedupSpec (l : List Article) : List Article :=
  match l with
  | [] => []
  | a :: rest => a :: dedupSpec (rest.filter (fun b => !(dedupKey b == dedupKey a)))
termination_by l.length
decreasing_by
  simp only [List.length_cons]
  exact Nat.lt_succ_of_le (List.length_filter_le _ _)

/-! ### NewsService read path (`src/services/NewsService.ts`)

The read operations are modelled as pure functions of the cached article
list (the `getArticles` fallback that triggers a refresh when the cache is
empty is not taken on any input with a non-empty cache, which is the situation
every claim about the read path concerns). -/

/-- Query `getLatestArticles(limit)`: cached articles sorted newest-first,
truncated to `limit`. -/
def getLatestArticles (cachedArticles : List Article) (limit : Nat) : List Article :=
  (sortByDateDesc cachedArticles).take limit

/-- Query `getFeaturedArticles()`: from the 20 latest articles, first those with a
(truthy) image, capped at 12, then articles without an image filling up to 15
slots.  When none of the 20 has an image, up to 15 image-less articles are
returned.  (`Math.max(0, remainingSlots)` is `Nat` truncated subtraction.) -/
def getFeaturedArticles (cachedArticles : List Article) : List Article :=
  let articles := getLatestArticles cachedArticles 20
  let articlesWithImages := articles.filter hasImage
  let articlesWithoutImages := articles.filter (fun a => !hasImage a)
  if articlesWithImages.length == 0 then
    articlesWithoutImages.take 15
  else
    let featuredWithImages := articlesWithImages.take 12
    let remainingSlots := 15 - featuredWithImages.length
    featuredWithImages ++ articlesWithoutImages.take remainingSlots

/-- Query `searchCachedArticles`: case-insensitive substring match of the query
over title, description, content and tags. -/
def searchCachedArticles (allArticles : List Article) (query : String) : List Article :=
  let lowercaseQuery := toLowerStr query
  allArticles.filter (fun a =>
    jsIncludes (toLowerStr a.title) lowercaseQuery ||
    jsIncludes (toLowerStr a.description) lowercaseQuery ||
    jsIncludes (toLowerStr a.content) lowercaseQuery ||
    a.tags.any (fun tag => jsIncludes (toLowerStr tag) lowercaseQuery))

/-- Query `NewsService.searchArticles`: empty or whitespace-only queries return the
empty list; otherwise the trimmed query is searched. -/
def searchArticles (cachedArticles : List Article) (query : String) : List Article :=
  if query == "" || (jsTrim query).length == 0 then []
  else searchCachedArticles cachedArticles (jsTrim query)

/-! ### Refresh scheduler (`NewsService.refreshArticles`) -/

/-- Environment of one refresh run: the articles the aggregator settles with
(`fetchArticlesFromSources` never rejects: every per-source failure is caught
and contributes an empty list), and success flags of the two cache writes; a
false flag makes the corresponding write raise. -/
structure RefreshEnv where
  fetched : List Article
  articlesWriteOk : Bool
  feedsWriteOk : Bool
  deriving DecidableEq, Repr

/-- Mutable state of the service: the single-flight flag and the two cache
files. -/
structure SvcState where
  isRefreshing : Bool
  articlesFile : Option CacheFile
  feedsFile : Option CacheFile
  deriving DecidableEq, Repr

/-- Outcome of one `refreshArticles` call: returned list, post state, and
whether a fetch of the sources was initiated. -/
structure RefreshOutcome where
  result : List Article
  state : SvcState
  didFetch : Bool
  deriving DecidableEq, Repr

/-- Content and modification time a `writeCacheFile` call stamps: the payload
plus `CACHE_VERSION` and the current time. -/
def writtenCacheFile (now : Nat) (payload : List Article) : CacheFile :=
  { mtime := now
  , data := { articles := payload, lastUpdated := now, version := cacheVersion } }

/-- The file-system level `addArticles`: reads the cached articles, merges via
`addArticles`, and persists through `cacheArticles`/`writeCacheFile` (which
stamps `CACHE_VERSION` and the current time).  A failed write raises
(`Except.error`) leaving the file unchanged. -/
def addArticlesFs (now : Nat) (env : RefreshEnv) (st : SvcState)
    (newArticles : List Article) : Except SvcState (List Article × SvcState) :=
  let existing := getCachedArticles now st.articlesFile
  match addArticles existing newArticles with
  | (result, false) => .ok (result, st)
  | (result, true) =>
    if env.articlesWriteOk then
      .ok (result, { st with articlesFile := some (writtenCacheFile now result) })
    else .error st

/-- Body of the `try` block of `refreshArticles` (entered with the
`isRefreshing` flag already set).  Early returns are `.ok`; a raised cache
write error is `.error` carrying the state at the raise and whether a fetch
had been initiated. -/
def refreshTryBody (now : Nat) (env : RefreshEnv) (force : Bool) (st : SvcState) :
    Except (SvcState × Bool) RefreshOutcome :=
  if !force
     && (let stats := getCacheStats now st.articlesFile
         !stats.isExpired && stats.articlesCount > 0) then
    .ok ⟨getCachedArticles now st.articlesFile, st, false⟩
  else
    let freshArticles := env.fetched
    if freshArticles.length == 0 then
      .ok ⟨getCachedArticles now st.articlesFile, st, true⟩
    else
      match addArticlesFs now env st freshArticles with
      | .error st1 => .error (st1, true)
      | .ok (allArticles, st1) =>
        if env.feedsWriteOk then
          .ok ⟨allArticles,
               { st1 with feedsFile := some (writtenCacheFile now allArticles) },
               true⟩
        else .error (st1, true)

/-- Scheduler `refreshArticles(force)`: the single-flight guard serves the cached list
when a refresh is already in flight and the call is not forced; otherwise the
flag is set, the `try` body runs, any raised error is caught by returning the
then-current cached articles, and the `finally` clears the flag. -/
def refreshArticles (now : Nat) (env : RefreshEnv) (st : SvcState) (force : Bool) :
    RefreshOutcome :=
  if st.isRefreshing && !force then
    ⟨getCachedArticles now st.articlesFile, st, false⟩
  else
    let st1 := { st with isRefreshing := true }
    match refreshTryBody now env force st1 with
    | .ok o => ⟨o.result, { o.state with isRefreshing := false }, o.didFetch⟩
    | .error (st2, df) =>
      ⟨getCachedArticles now st2.articlesFile, { st2 with isRefreshing := false }, df⟩

/-- Extract the fetch flag from a `try`-body outcome. -/
def tryBodyDidFetch : Except (SvcState × Bool) RefreshOutcome → Bool
  | .ok o => o.didFetch
  | .error (_, df) => df

/-! ### Concrete inputs used by counterexamples and witnesses -/

/-- Small article builder: the fields the claims never vary are fixed. -/
def mkArticle (id : String) (pubDate : Nat) (image : Option String) (title : String) : Article :=
  { id := id, title := title, description := "", content := "", link := ""
  , pubDate := pubDate, source := "", sourceColor := "", category := ""
  , slug := "", image := image, tags := [], readingTime := 1 }

/-- A generic single fresh article. -/
def exW : Article := mkArticle "w" 1 none "t"

/-- A cached article carrying an image. -/
def exImgArticle : Article := mkArticle "i" 5 (some "pic") "t"

/-- Environment with no fetched articles and succeeding writes. -/
def exEnv0 : RefreshEnv := { fetched := [], articlesWriteOk := true, feedsWriteOk := true }

/-- Environment whose articles-cache write fails. -/
def exEnvWriteFail : RefreshEnv :=
  { fetched := [exW], articlesWriteOk := false, feedsWriteOk := true }

/-- Idle service state with no cache files. -/
def exStIdle : SvcState := { isRefreshing := false, articlesFile := none, feedsFile := none }

/-- Service state with a refresh already in flight. -/
def exStBusy : SvcState := { isRefreshing := true, articlesFile := none, feedsFile := none }

/-- Cache of 21 articles where only the oldest one (rank 21 by recency)
carries an image. -/
def exFeatArticle (i : Nat) : Article :=
  mkArticle "" (100 - i) (if i == 20 then some "img" else none) ""

/-- The 21-article cache for the featured-articles counterexample. -/
def exFeatCache : List Article := (List.range 21).map exFeatArticle

/-- A version-matching cache file written at time 0. -/
def exC9File : CacheFile :=
  { mtime := 0, data := { articles := [], lastUpdated := 0, version := "1.0.0" } }

/-- Two articles sharing one `id` within a single batch. -/
def exDupA : Article := mkArticle "x" 2 none "first"

/-- Second article with the repeated `id`. -/
def exDupB : Article := mkArticle "x" 1 none "second"

/-- Batch of 1001 articles with pairwise-distinct ids whose publication dates
strictly descend except for a tie between the last two (dates
1000, 999, ..., 2, 1, 1).  Article `i` has id `"a" * i` (a string of `i`
copies of `a`). -/
def exIdemArticle (i : Nat) : Article :=
  mkArticle (String.mk (List.replicate i 'a')) (if i ≤ 999 then 1000 - i else 1) none ""

/-- The 1001-article batch: merging it twice into an empty cache changes the
cache the second time (the tied article dropped at the cap boundary is
re-added ahead of its twin). -/
def exIdemBatch : List Article := (List.range 1001).map exIdemArticle

/-! ## Shared helper lemmas -/

theorem sortByDateDesc_perm (l : List Article) : List.Perm (sortByDateDesc l) l :=
  List.perm_insertionSort dateGe l

theorem sortByDateDesc_sorted (l : List Article) : List.Sorted dateGe (sortByDateDesc l) :=
  List.sorted_insertionSort dateGe l

theorem sortByDateDesc_length (l : List Article) : (sortByDateDesc l).length = l.length :=
  (sortByDateDesc_perm l).length_eq

theorem uniqueNew_nil (newArticles : List Article) :
    uniqueNewArticles [] newArticles = newArticles := by
  unfold uniqueNewArticles
  simp

/-! ## C4: single-flight guard -/

/-- C4: whenever `refreshArticles(force=false)` is called while a refresh is
already in flight (`isRefreshing` true), it returns the currently cached
article list immediately, leaves the service state untouched (no
cache-mutating work), and initiates no fetch. -/
theorem refreshArticles_single_flight (now : Nat) (env : RefreshEnv) (st : SvcState)
    (h : st.isRefreshing = true) :
    refreshArticles now env st false =
      ⟨getCachedArticles now st.articlesFile, st, false⟩ := by
  unfold refreshArticles
  rw [h]
  rfl

/-- Witness for C4 at a concrete busy state. -/
theorem refreshArticles_single_flight_witness :
    refreshArticles 0 exEnv0 exStBusy false =
      ⟨getCachedArticles 0 exStBusy.articlesFile, exStBusy, false⟩ :=
  refreshArticles_single_flight 0 exEnv0 exStBusy rfl

/-! ## C10: search query handling -/

/-- C10: a query that is empty or whitespace-only returns the empty list
whatever the cache holds (the cache is never consulted: the result does not
depend on it); any other query is trimmed first and then matched
case-insensitively as a substring of title, description, content or a tag. -/
theorem searchArticles_trim_semantics :
    (∀ query, jsTrim query = "" → ∀ cachedArticles, searchArticles cachedArticles query = [])
  ∧ (∀ cachedArticles query, jsTrim query ≠ "" →
      searchArticles cachedArticles query = searchCachedArticles cachedArticles (jsTrim query)
      ∧ ∀ a, a ∈ searchArticles cachedArticles query ↔
          a ∈ cachedArticles ∧
            (jsIncludes (toLowerStr a.title) (toLowerStr (jsTrim query)) ||
             jsIncludes (toLowerStr a.description) (toLowerStr (jsTrim query)) ||
             jsIncludes (toLowerStr a.content) (toLowerStr (jsTrim query)) ||
             a.tags.any (fun tag => jsIncludes (toLowerStr tag) (toLowerStr (jsTrim query))))
            = true) := by
  constructor
  · intro query hq cachedArticles
    unfold searchArticles
    rw [hq]
    simp
  · intro cachedArticles query hq
    have hne : (query == "") = false := by
      cases hqe : query == "" with
      | false => rfl
      | true => exact absurd (by rw [eq_of_beq hqe]; rfl) hq
    have hlen : ((jsTrim query).length == 0) = false := by
      cases hl : (jsTrim query).length == 0 with
      | false => rfl
      | true =>
        exfalso
        apply hq
        have h0 : (trimChars query.toList).length = 0 := eq_of_beq hl
        show String.mk (trimChars query.toList) = ""
        rw [List.length_eq_zero.mp h0]
    have hsearch : searchArticles cachedArticles query
        = searchCachedArticles cachedArticles (jsTrim query) := by
      unfold searchArticles
      rw [hne, hlen]
      rfl
    refine ⟨hsearch, fun a => ?_⟩
    rw [hsearch]
    unfold searchCachedArticles
    simp [List.mem_filter]

/-- Witness for C10: a whitespace query yields nothing; a padded query is
searched trimmed. -/
theorem searchArticles_trim_semantics_witness :
    searchArticles [exW] "  " = []
    ∧ searchArticles [exW] " t " = searchCachedArticles [exW] (jsTrim " t ") :=
  ⟨searchArticles_trim_semantics.1 "  " (by decide) [exW],
   (searchArticles_trim_semantics.2 [exW] " t " (by decide)).1⟩

/-! ## C9: cache read miss conditions -/

/-- C9 counterexample: at an age of exactly 30 minutes the read misses
although the file exists, its version matches, and its age does not exceed
(strictly) the TTL — the code expires at `age >= TTL`, not `age > TTL`. -/
theorem readCacheFile_boundary_counterexample :
    readCacheFile 1800000 (some exC9File) = none
    ∧ exC9File.data.version = cacheVersion
    ∧ ¬(1800000 - exC9File.mtime > cacheExpiryMs) := by decide

theorem refreshTryBody_fetches (now : Nat) (env : RefreshEnv) (st : SvcState)
    (h : isCacheValid now st.articlesFile = false) :
    tryBodyDidFetch (refreshTryBody now env false st) = true := by
  have hexp : (getCacheStats now st.articlesFile).isExpired = true := by
    simp [getCacheStats, h]
  unfold refreshTryBody
  simp only [hexp, Bool.not_true, Bool.false_and, Bool.and_false, Bool.not_false, Bool.true_and,
    Bool.false_eq_true, if_false]
  split
  · rfl
  · split
    · rfl
    · split
      · rfl
      · rfl

/-- C9 (amended): a cache read returns absent exactly when the file does not
exist, or its age computed from the storage modification time is at least
(`≥`, not strictly greater than) the 30-minute TTL, or its stored version tag
differs from the current schema version; and when the articles snapshot is
invalid (missing or at least 30 minutes old), stats report it expired and
`refreshArticles(force=false)` from an idle state initiates a real fetch. -/
theorem readCacheFile_miss_conditions :
    (∀ now, readCacheFile now none = none)
  ∧ (∀ now (f : CacheFile), readCacheFile now (some f) = none ↔
       (cacheExpiryMs ≤ now - f.mtime ∨ f.data.version ≠ cacheVersion))
  ∧ (∀ now (env : RefreshEnv) (st : SvcState),
       st.isRefreshing = false → isCacheValid now st.articlesFile = false →
       (getCacheStats now st.articlesFile).isExpired = true
       ∧ (refreshArticles now env st false).didFetch = true) := by
  refine ⟨fun _ => rfl, fun now f => ?_, fun now env st h1 h2 => ⟨?_, ?_⟩⟩
  · unfold readCacheFile isCacheValid
    by_cases hv : now - f.mtime < cacheExpiryMs
    · by_cases hveq : f.data.version = cacheVersion
      · simp [hv, hveq, Nat.not_le.mpr hv]
      · simp [hv, hveq]
    · simp [hv, Nat.not_lt.mp hv]
  · simp [getCacheStats, h2]
  · have hdf := refreshTryBody_fetches now env { st with isRefreshing := true } h2
    unfold refreshArticles
    rw [h1]
    simp only [Bool.false_and, Bool.false_eq_true, if_false]
    cases htb : refreshTryBody now env false { st with isRefreshing := true } with
    | ok o =>
      rw [htb] at hdf
      simp only [htb]
      exact hdf
    | error p =>
      rcases p with ⟨st2, df⟩
      rw [htb] at hdf
      simp only [htb]
      exact hdf

/-- Witness for C9: concrete instantiations of the two implications. -/
theorem readCacheFile_miss_conditions_witness :
    (readCacheFile 3 (some exC9File) = none ↔
      (cacheExpiryMs ≤ 3 - exC9File.mtime ∨ exC9File.data.version ≠ cacheVersion))
    ∧ (refreshArticles 4 exEnv0 exStIdle false).didFetch = true :=
  ⟨readCacheFile_miss_conditions.2.1 3 exC9File,
   (readCacheFile_miss_conditions.2.2 4 exEnv0 exStIdle rfl rfl).2⟩

/-! ## C5: refresh error containment -/

/-- C5 counterexample: the single-flight early return exits
`refreshArticles` with the `isRefreshing` flag still `true` (it belongs to
the refresh already in flight), so the flag is not false after every exit
path of every execution. -/
theorem refreshArticles_guard_exit_keeps_flag :
    (refreshArticles 0 exEnv0 exStBusy false).state.isRefreshing = true := rfl

/-- C5 (amended): `refreshArticles` never propagates an error: the guard path
returns the cached list leaving the state untouched; every other path clears
`isRefreshing` on exit; and whenever the `try` body raises (merge-write or
feed-persist failure) the call returns the then-current cached article list
as fallback with the flag cleared.  Only the single-flight early return
leaves the flag as it found it, for the in-flight refresh to clear. -/
theorem refreshArticles_error_containment (now : Nat) (env : RefreshEnv) (st : SvcState)
    (force : Bool) :
    ((st.isRefreshing && !force) = false →
      (refreshArticles now env st force).state.isRefreshing = false)
  ∧ ((st.isRefreshing && !force) = true →
      refreshArticles now env st force = ⟨getCachedArticles now st.articlesFile, st, false⟩)
  ∧ (∀ (st2 : SvcState) (df : Bool), (st.isRefreshing && !force) = false →
      refreshTryBody now env force { st with isRefreshing := true } = .error (st2, df) →
      refreshArticles now env st force =
        ⟨getCachedArticles now st2.articlesFile, { st2 with isRefreshing := false }, df⟩) := by
  refine ⟨fun hg => ?_, fun hg => ?_, fun st2 df hg htb => ?_⟩
  · unfold refreshArticles
    rw [hg]
    simp only [Bool.false_eq_true, if_false]
    cases htb : refreshTryBody now env force { st with isRefreshing := true } with
    | ok o => simp only [htb]
    | error p =>
      rcases p with ⟨st2, df⟩
      simp only [htb]
  · unfold refreshArticles
    rw [hg]
    rfl
  · unfold refreshArticles
    rw [hg]
    simp only [Bool.false_eq_true, if_false, htb]

/-- Witness for C5: a failing cache write is contained — the caller receives
the cached fallback and the flag ends cleared. -/
theorem refreshArticles_error_containment_witness :
    refreshArticles 7 exEnvWriteFail exStIdle false =
      ⟨getCachedArticles 7 exStBusy.articlesFile, { exStBusy with isRefreshing := false }, true⟩ :=
  (refreshArticles_error_containment 7 exEnvWriteFail exStIdle false).2.2 exStBusy true rfl rfl

/-! ## C7: slug derivation -/

theorem dropTrailing_length_le (p : Char → Bool) (l : List Char) :
    (dropTrailing p l).length ≤ l.length := by
  calc (dropTrailing p l).length = (l.reverse.dropWhile p).length := List.length_reverse _
    _ ≤ l.reverse.length := (List.dropWhile_sublist _).length_le
    _ = l.length := List.length_reverse _

theorem slugify_length_le (title : String) : (slugify title).length ≤ 100 := by
  unfold slugify
  split
  · decide
  · exact le_trans (dropTrailing_length_le _ _) (List.length_take_le _ _)

/-- C7: the generated slug is the date prefix, a hyphen, and the slugified
title; on the documented example it equals
`2024-01-05-breaking-market-crashes`; and the slugified part never exceeds
100 characters. -/
theorem generateArticleSlug_spec :
    (∀ dateStr title, generateArticleSlug dateStr title = dateStr ++ "-" ++ slugify title)
  ∧ generateArticleSlug "2024-01-05" "Breaking: Market Crashes!"
      = "2024-01-05-breaking-market-crashes"
  ∧ (∀ title, (slugify title).length ≤ 100) := by
  refine ⟨fun _ _ => rfl, by decide, fun t => slugify_length_le t⟩

/-! ## C3: featured-article image guarantee -/

/-- C3 counterexample: the cache holds an article with a defined image (the
oldest of 21), yet the first featured article has no image — the guarantee
only scans the 20 most recent articles. -/
theorem getFeaturedArticles_ignores_image_outside_top20 :
    exFeatArticle 20 ∈ exFeatCache ∧ (exFeatArticle 20).image = some "img"
    ∧ (getFeaturedArticles exFeatCache).head?.map (fun a => a.image) = some none := by
  decide

/-- C3 (amended): whenever at least one of the 20 most recent cached articles
(the pool `getFeaturedArticles` draws from) has a truthy image, the first
element of the featured list has a truthy image. -/
theorem getFeaturedArticles_first_has_image (cachedArticles : List Article)
    (h : ∃ a ∈ getLatestArticles cachedArticles 20, hasImage a = true) :
    ∃ a0, (getFeaturedArticles cachedArticles).head? = some a0 ∧ hasImage a0 = true := by
  obtain ⟨a, ha, hImg⟩ := h
  have hmem : a ∈ (getLatestArticles cachedArticles 20).filter hasImage :=
    List.mem_filter.mpr ⟨ha, hImg⟩
  cases hfi : (getLatestArticles cachedArticles 20).filter hasImage with
  | nil => rw [hfi] at hmem; cases hmem
  | cons a0 tl =>
    have ha0 : hasImage a0 = true :=
      (List.mem_filter.mp (hfi ▸ List.mem_cons_self a0 tl)).2
    refine ⟨a0, ?_, ha0⟩
    unfold getFeaturedArticles
    simp only [hfi]
    simp

/-- Witness for C3 (amended) on a one-article cache with an image. -/
theorem getFeaturedArticles_first_has_image_witness :
    ∃ a0, (getFeaturedArticles [exImgArticle]).head? = some a0 ∧ hasImage a0 = true :=
  getFeaturedArticles_first_has_image [exImgArticle] ⟨exImgArticle, by decide, by decide⟩

/-! ## C6: aggregator deduplication -/

theorem removeDuplicatesAux_eq (l : List Article) : ∀ seen,
    removeDuplicatesAux seen l
      = dedupSpec (l.filter (fun a => !(seen.contains (dedupKey a)))) := by
  induction l with
  | nil => intro seen; simp [removeDuplicatesAux, dedupSpec]
  | cons a rest ih =>
    intro seen
    cases hs : seen.contains (dedupKey a) with
    | true =>
      rw [removeDuplicatesAux, if_pos hs, ih seen]
      have hfc : List.filter (fun x => !(seen.contains (dedupKey x))) (a :: rest)
          = List.filter (fun x => !(seen.contains (dedupKey x))) rest := by
        simp only [List.filter_cons, hs, Bool.not_true, Bool.false_eq_true, if_false]
      rw [hfc]
    | false =>
      rw [removeDuplicatesAux, if_neg (by rw [hs]; exact Bool.false_ne_true),
        ih (dedupKey a :: seen)]
      have hfc : List.filter (fun x => !(seen.contains (dedupKey x))) (a :: rest)
          = a :: List.filter (fun x => !(seen.contains (dedupKey x))) rest := by
        simp only [List.filter_cons, hs, Bool.not_false, if_true]
      rw [hfc]
      simp only [dedupSpec]
      congr 1
      rw [List.filter_filter]
      congr 1
      apply List.filter_congr
      intro b _
      simp only [List.contains_cons, Bool.not_or]

theorem dedupSpec_sublist (l : List Article) : List.Sublist (dedupSpec l) l := by
  induction l using dedupSpec.induct with
  | case1 => simp [dedupSpec]
  | case2 a rest ih =>
    simp only [dedupSpec]
    exact List.Sublist.cons₂ a (ih.trans (List.filter_sublist rest))

theorem dedupSpec_keys_nodup (l : List Article) :
    ((dedupSpec l).map dedupKey).Nodup := by
  induction l using dedupSpec.induct with
  | case1 => simp [dedupSpec]
  | case2 a rest ih =>
    rw [dedupSpec]
    simp only [List.map_cons, List.nodup_cons]
    refine ⟨fun hmem => ?_, ih⟩
    obtain ⟨b, hb, hkey⟩ := List.mem_map.mp hmem
    have hbf := (dedupSpec_sublist _).subset hb
    have := (List.mem_filter.mp hbf).2
    rw [hkey] at this
    simp at this

/-- C6: `removeDuplicates` keeps, in input order, exactly the first
occurrence of every dedup key (normalized title - link) and drops all later
articles with the same key; consequently the keys of its output are pairwise
distinct, so two entries with identical normalized title and link yield
exactly one output article. -/
theorem removeDuplicates_first_occurrence :
    ∀ articles : List Article,
      removeDuplicates articles = dedupSpec articles
      ∧ ((removeDuplicates articles).map dedupKey).Nodup := by
  intro articles
  have h : removeDuplicates articles = dedupSpec articles := by
    unfold removeDuplicates
    rw [removeDuplicatesAux_eq]
    congr 1
    simp
  exact ⟨h, h ▸ dedupSpec_keys_nodup articles⟩

/-! ## Merge-engine helper lemmas (C1, C2, C8) -/

theorem contains_of_mem {ids : List String} {s : String} (h : s ∈ ids) :
    ids.contains s = true :=
  List.elem_iff.mpr h

theorem contains_eq_false_of_not_mem {ids : List String} {s : String} (h : s ∉ ids) :
    ids.contains s = false := by
  cases hc : ids.contains s with
  | false => rfl
  | true => exact absurd (List.elem_iff.mp hc) h

theorem addArticles_of_no_new (existingArticles newArticles : List Article)
    (h : ((uniqueNewArticles existingArticles newArticles).length == 0) = true) :
    addArticles existingArticles newArticles = (existingArticles, false) := by
  unfold addArticles
  simp only [h, if_true]

theorem addArticles_of_new (existingArticles newArticles : List Article)
    (h : ((uniqueNewArticles existingArticles newArticles).length == 0) = false) :
    addArticles existingArticles newArticles
      = ((sortByDateDesc (uniqueNewArticles existingArticles newArticles
          ++ existingArticles)).take 1000, true) := by
  unfold addArticles
  simp only [h, Bool.false_eq_true, if_false]

theorem addArticles_all_cached (existingArticles L : List Article)
    (h : ∀ a ∈ L, a.id ∈ existingArticles.map (·.id)) :
    addArticles existingArticles L = (existingArticles, false) := by
  have hu : uniqueNewArticles existingArticles L = [] := by
    unfold uniqueNewArticles
    apply List.filter_eq_nil_iff.mpr
    intro a ha
    rw [contains_of_mem (h a ha)]
    simp
  exact addArticles_of_no_new existingArticles L (by rw [hu]; rfl)

theorem addArticles_ids_nodup (existingArticles newArticles : List Article)
    (he : (existingArticles.map (·.id)).Nodup)
    (hb : (newArticles.map (·.id)).Nodup) :
    (((addArticles existingArticles newArticles).1).map (·.id)).Nodup := by
  cases hl : (uniqueNewArticles existingArticles newArticles).length == 0 with
  | true =>
    rw [addArticles_of_no_new existingArticles newArticles hl]
    exact he
  | false =>
    rw [addArticles_of_new existingArticles newArticles hl]
    show (((sortByDateDesc (uniqueNewArticles existingArticles newArticles
        ++ existingArticles)).take 1000).map (·.id)).Nodup
    have h1 : ((uniqueNewArticles existingArticles newArticles
        ++ existingArticles).map (·.id)).Nodup := by
      rw [List.map_append]
      rw [List.nodup_append]
      refine ⟨hb.sublist ((List.filter_sublist newArticles).map (·.id)), he, ?_⟩
      intro s hs1 hs2
      obtain ⟨a, ha, rfl⟩ := List.mem_map.mp hs1
      have hpred := (List.mem_filter.mp ha).2
      rw [contains_of_mem hs2] at hpred
      simp at hpred
    have h2 : ((sortByDateDesc (uniqueNewArticles existingArticles newArticles
        ++ existingArticles)).map (·.id)).Nodup :=
      (((sortByDateDesc_perm _).map (·.id)).nodup_iff).mpr h1
    exact h2.sublist ((List.take_sublist 1000
      (sortByDateDesc (uniqueNewArticles existingArticles newArticles
        ++ existingArticles))).map (fun a : Article => a.id))

/-! ## C8: id uniqueness -/

/-- C8 counterexample: a single fetch batch containing two articles with the
same `id` is merged with both occurrences kept — the cache ends up with a
duplicated id (`addArticles` only filters ids against the existing cache,
not inside the batch). -/
theorem mergeSeq_duplicate_ids_counterexample :
    ¬ ((mergeSeq [[exDupA, exDupB]]).map (·.id)).Nodup := by decide

/-- C8 (amended): after every sequence of `addArticles` merges whose
individual batches carry pairwise-distinct ids, the `id` field is unique
within the cached article list. -/
theorem mergeSeq_ids_nodup (batches : List (List Article))
    (h : ∀ b ∈ batches, (b.map (·.id)).Nodup) :
    ((mergeSeq batches).map (·.id)).Nodup := by
  suffices hgen : ∀ (bs : List (List Article)) (cache : List Article),
      (cache.map (·.id)).Nodup → (∀ b ∈ bs, (b.map (·.id)).Nodup) →
      ((bs.foldl (fun c b => (addArticles c b).1) cache).map (·.id)).Nodup by
    exact hgen batches [] (by simp) h
  intro bs
  induction bs with
  | nil =>
    intro cache hc _
    simpa using hc
  | cons b rest ih =>
    intro cache hc hall
    simp only [List.foldl_cons]
    exact ih _ (addArticles_ids_nodup cache b hc (hall b (List.mem_cons_self b rest)))
      (fun x hx => hall x (List.mem_cons_of_mem b hx))

/-- Witness for C8 (amended) with two one-article batches. -/
theorem mergeSeq_ids_nodup_witness :
    ((mergeSeq [[exW], [exImgArticle]]).map (·.id)).Nodup :=
  mergeSeq_ids_nodup [[exW], [exImgArticle]] (by decide)

/-! ## C2: bounded retention -/

/-- C2: the merge result never exceeds 1000 articles whenever a write occurs
or the prior cache respected the bound, and when the deduplicated union of
new and existing articles exceeds 1000, exactly 1000 remain: the prefix of
the descending sort, every retained article dated no earlier than every
evicted one. -/
theorem addArticles_bounded_retention (existingArticles newArticles : List Article) :
    ((addArticles existingArticles newArticles).2 = true →
       (addArticles existingArticles newArticles).1.length ≤ 1000)
  ∧ (existingArticles.length ≤ 1000 →
       (addArticles existingArticles newArticles).1.length ≤ 1000)
  ∧ (existingArticles.length ≤ 1000 →
     1000 < (uniqueNewArticles existingArticles newArticles ++ existingArticles).length →
       (addArticles existingArticles newArticles).1
         = (sortByDateDesc (uniqueNewArticles existingArticles newArticles
             ++ existingArticles)).take 1000
       ∧ (addArticles existingArticles newArticles).1.length = 1000
       ∧ ∀ a ∈ (addArticles existingArticles newArticles).1,
         ∀ b ∈ (sortByDateDesc (uniqueNewArticles existingArticles newArticles
             ++ existingArticles)).drop 1000,
           b.pubDate ≤ a.pubDate) := by
  refine ⟨?_, ?_, ?_⟩
  · intro hw
    cases hl : (uniqueNewArticles existingArticles newArticles).length == 0 with
    | true =>
      rw [addArticles_of_no_new existingArticles newArticles hl] at hw
      cases hw
    | false =>
      rw [addArticles_of_new existingArticles newArticles hl]
      exact List.length_take_le 1000 _
  · intro he
    cases hl : (uniqueNewArticles existingArticles newArticles).length == 0 with
    | true =>
      rw [addArticles_of_no_new existingArticles newArticles hl]
      exact he
    | false =>
      rw [addArticles_of_new existingArticles newArticles hl]
      exact List.length_take_le 1000 _
  · intro he hover
    have hne : ((uniqueNewArticles existingArticles newArticles).length == 0) = false := by
      cases hl : (uniqueNewArticles existingArticles newArticles).length == 0 with
      | false => rfl
      | true =>
        exfalso
        have hu : (uniqueNewArticles existingArticles newArticles).length = 0 := eq_of_beq hl
        rw [List.length_append, hu] at hover
        omega
    rw [addArticles_of_new existingArticles newArticles hne]
    refine ⟨rfl, ?_, ?_⟩
    · rw [List.length_take, sortByDateDesc_length]
      exact Nat.min_eq_left (le_of_lt hover)
    · intro a ha b hb
      exact (sortByDateDesc_sorted _).rel_of_mem_take_of_mem_drop ha hb

/-- Witness for C2 on a 1001-article batch merged into the empty cache. -/
theorem addArticles_bounded_retention_witness :
    (addArticles [] exIdemBatch).1.length = 1000 :=
  ((addArticles_bounded_retention [] exIdemBatch).2.2 (by simp)
    (by rw [uniqueNew_nil]
        simp only [List.append_nil, exIdemBatch, List.length_map, List.length_range]
        omega)).2.1

/-! ## C1: merge idempotence -/

theorem sortByDateDesc_eq_self {l : List Article} (h : List.Pairwise dateGe l) :
    sortByDateDesc l = l :=
  List.Sorted.insertionSort_eq h

theorem exIdem_pairwise (n : Nat) :
    List.Pairwise dateGe ((List.range n).map exIdemArticle) := by
  rw [List.pairwise_map, List.pairwise_iff_getElem]
  intro i j hi hj hij
  simp only [List.getElem_range]
  show (if j ≤ 999 then 1000 - j else 1) ≤ (if i ≤ 999 then 1000 - i else 1)
  by_cases hi9 : i ≤ 999 <;> by_cases hj9 : j ≤ 999 <;> simp [hi9, hj9] <;> omega

theorem sortByDateDesc_cons (x : Article) (l : List Article)
    (h : List.Pairwise dateGe l) :
    sortByDateDesc (x :: l) = List.orderedInsert dateGe x l := by
  unfold sortByDateDesc
  rw [List.insertionSort]
  congr 1
  exact List.Sorted.insertionSort_eq h

theorem exIdemBatch_split :
    exIdemBatch = (List.range 1000).map exIdemArticle ++ [exIdemArticle 1000] := by
  unfold exIdemBatch
  rw [List.range_succ, List.map_append]
  rfl

theorem exIdemKept_split :
    (List.range 1000).map exIdemArticle
      = (List.range 999).map exIdemArticle ++ [exIdemArticle 999] := by
  rw [show (1000 : Nat) = 999 + 1 from rfl, List.range_succ, List.map_append]
  rfl

theorem exIdem_first :
    addArticles [] exIdemBatch = ((List.range 1000).map exIdemArticle, true) := by
  have hlen : (uniqueNewArticles [] exIdemBatch).length = 1001 := by
    rw [uniqueNew_nil]
    simp [exIdemBatch]
  have hne : ((uniqueNewArticles [] exIdemBatch).length == 0) = false := by
    rw [hlen]
    rfl
  have hp : List.Pairwise dateGe exIdemBatch := exIdem_pairwise 1001
  rw [addArticles_of_new [] exIdemBatch hne, uniqueNew_nil, List.append_nil,
    sortByDateDesc_eq_self hp, exIdemBatch_split, List.take_left' (by simp)]

theorem exIdem_id_not_cached :
    (exIdemArticle 1000).id ∉ ((List.range 1000).map exIdemArticle).map (·.id) := by
  intro hmem
  rw [List.map_map] at hmem
  obtain ⟨i, hi, hieq⟩ := List.mem_map.mp hmem
  have hlen := congrArg String.length hieq
  simp only [Function.comp_apply, exIdemArticle, mkArticle, String.length_mk,
    List.length_replicate] at hlen
  have := List.mem_range.mp hi
  omega

theorem exIdem_second_unique :
    uniqueNewArticles ((List.range 1000).map exIdemArticle) exIdemBatch
      = [exIdemArticle 1000] := by
  unfold uniqueNewArticles
  rw [exIdemBatch_split, List.filter_append]
  have h1 : List.filter
      (fun a => !((((List.range 1000).map exIdemArticle).map (·.id)).contains a.id))
      ((List.range 1000).map exIdemArticle) = [] := by
    apply List.filter_eq_nil_iff.mpr
    intro a ha
    rw [contains_of_mem (List.mem_map_of_mem (·.id) ha)]
    simp
  have h2 : List.filter
      (fun a => !((((List.range 1000).map exIdemArticle).map (·.id)).contains a.id))
      [exIdemArticle 1000] = [exIdemArticle 1000] := by
    rw [List.filter_cons]
    rw [contains_eq_false_of_not_mem exIdem_id_not_cached]
    rfl
  rw [h1, h2]
  rfl

theorem orderedInsert_append_not (x : Article) (l₁ l₂ : List Article)
    (h : ∀ y ∈ l₁, ¬ dateGe x y) :
    List.orderedInsert dateGe x (l₁ ++ l₂) = l₁ ++ List.orderedInsert dateGe x l₂ := by
  induction l₁ with
  | nil => rfl
  | cons y ys ih =>
    rw [List.cons_append, List.orderedInsert, if_neg (h y (List.mem_cons_self y ys)),
      ih (fun z hz => h z (List.mem_cons_of_mem y hz)), List.cons_append]

theorem exIdem_second :
    addArticles ((List.range 1000).map exIdemArticle) exIdemBatch
      = ((List.range 999).map exIdemArticle ++ [exIdemArticle 1000], true) := by
  have hne : ((uniqueNewArticles ((List.range 1000).map exIdemArticle) exIdemBatch).length
      == 0) = false := by
    rw [exIdem_second_unique]
    rfl
  rw [addArticles_of_new _ _ hne, exIdem_second_unique, List.singleton_append,
    sortByDateDesc_cons _ _ (exIdem_pairwise 1000), exIdemKept_split,
    orderedInsert_append_not (exIdemArticle 1000) _ [exIdemArticle 999] ?hnot]
  case hnot =>
    intro y hy
    obtain ⟨i, hi, rfl⟩ := List.mem_map.mp hy
    have hilt := List.mem_range.mp hi
    show ¬ ((exIdemArticle i).pubDate ≤ (exIdemArticle 1000).pubDate)
    show ¬ ((if i ≤ 999 then 1000 - i else 1) ≤ (if 1000 ≤ 999 then 1000 - 1000 else 1))
    rw [if_pos (by omega : i ≤ 999), if_neg (by omega : ¬ (1000 ≤ 999))]
    omega
  have hins : List.orderedInsert dateGe (exIdemArticle 1000) [exIdemArticle 999]
      = [exIdemArticle 1000, exIdemArticle 999] := by
    rw [List.orderedInsert, if_pos]
    show (exIdemArticle 999).pubDate ≤ (exIdemArticle 1000).pubDate
    decide
  rw [hins, List.take_append_eq_append_take, List.take_of_length_le (by simp)]
  have hrem : 1000 - ((List.range 999).map exIdemArticle).length = 1 := by simp
  rw [hrem]
  rfl

/-- C1 counterexample: merging the same 1001-article batch (distinct ids,
publication dates 1000, 999, ..., 2, 1, 1) twice into an empty cache does not
leave the cache unchanged — the first merge evicts the 1001st article at the
cap, the second merge re-adds it, and the stable sort places it ahead of the
equally-dated article 999, which is evicted in its place. -/
theorem addArticles_twice_changes_cache :
    (addArticles (addArticles [] exIdemBatch).1 exIdemBatch).1
      ≠ (addArticles [] exIdemBatch).1 := by
  simp only [exIdem_first, exIdem_second]
  rw [exIdemKept_split]
  intro heq
  have hlast := List.append_cancel_left heq
  have hx : exIdemArticle 1000 = exIdemArticle 999 := by
    injection hlast
  have hlen := congrArg (fun a => a.id.length) hx
  simp only [exIdemArticle, mkArticle, String.length_mk, List.length_replicate] at hlen
  omega

/-- C1 (amended): merging the same list twice leaves the cache unchanged with
no second write provided the first merge stayed within the 1000-article cap
(beyond the cap, date ties at the boundary can make the second merge alter
the cache); the double-merge result carries no duplicate ids provided cache
and batch ids are each pairwise distinct; and when every input id is already
cached, the existing list is returned as-is and no write occurs. -/
theorem addArticles_idempotent (existingArticles L : List Article) :
    ((uniqueNewArticles existingArticles L ++ existingArticles).length ≤ 1000 →
       addArticles (addArticles existingArticles L).1 L
         = ((addArticles existingArticles L).1, false))
  ∧ ((existingArticles.map (·.id)).Nodup → (L.map (·.id)).Nodup →
       (((addArticles (addArticles existingArticles L).1 L).1).map (·.id)).Nodup)
  ∧ ((∀ a ∈ L, a.id ∈ existingArticles.map (·.id)) →
       addArticles existingArticles L = (existingArticles, false)) := by
  refine ⟨?_, ?_, fun h => addArticles_all_cached existingArticles L h⟩
  · intro hfit
    cases hl : (uniqueNewArticles existingArticles L).length == 0 with
    | true =>
      simp only [addArticles_of_no_new existingArticles L hl]
    | false =>
      rw [addArticles_of_new existingArticles L hl]
      have hlen : (sortByDateDesc (uniqueNewArticles existingArticles L
          ++ existingArticles)).length ≤ 1000 := by
        rw [sortByDateDesc_length]
        exact hfit
      show addArticles ((sortByDateDesc (uniqueNewArticles existingArticles L
          ++ existingArticles)).take 1000) L
        = (((sortByDateDesc (uniqueNewArticles existingArticles L
          ++ existingArticles)).take 1000, true).1, false)
      rw [List.take_of_length_le hlen]
      apply addArticles_all_cached
      intro a ha
      rw [List.Perm.mem_iff ((sortByDateDesc_perm _).map (·.id)), List.map_append,
        List.mem_append]
      by_cases hc : a.id ∈ existingArticles.map (·.id)
      · right
        exact hc
      · left
        apply List.mem_map_of_mem
        unfold uniqueNewArticles
        apply List.mem_filter.mpr
        refine ⟨ha, ?_⟩
        rw [contains_eq_false_of_not_mem hc]
        rfl
  · intro he hb
    exact addArticles_ids_nodup _ L (addArticles_ids_nodup existingArticles L he hb) hb

/-- Witness for C1 (amended): small concrete merges discharging each
hypothesis. -/
theorem addArticles_idempotent_witness :
    (addArticles (addArticles [] [exW]).1 [exW] = ((addArticles [] [exW]).1, false))
    ∧ (((addArticles (addArticles [exW] [exW]).1 [exW]).1).map (·.id)).Nodup
    ∧ addArticles [exW] [exW] = ([exW], false) :=
  ⟨(addArticles_idempotent [] [exW]).1 (by decide),
   (addArticles_idempotent [exW] [exW]).2.1 (by decide) (by decide),
   (addArticles_idempotent [exW] [exW]).2.2 (by decide)⟩

end RssLive
